import Mathlib

/-!
Verification of the receive-kit submission-verification service
(src/index.ts and src/txUtils.ts) against its specification.

The JavaScript values flowing through the service are JSON-like trees.
We embed them as the inductive type `Json` below.  JavaScript objects are
modelled as association lists in enumeration order; `undefined` produced by
a missing property access is modelled with `Option Json` (`none`).

External cryptographic and network primitives
(`HashingLogic.recoverHashSigner` composed with `toBuffer`, `keccak256`,
`shareKitUtil.verifyOffChainDataIntegrity`, and the transaction-log fetch
of txUtils.ts) are consumed by the source as trusted black boxes, so the
embedding takes them as function parameters.
-/

/-- A JSON-like JavaScript value (numbers restricted to integers, which is
all the verified code ever compares). -/
inductive Json where
  | null : Json
  | bool : Bool → Json
  | num : Int → Json
  | str : String → Json
  | arr : List Json → Json
  | obj : List (String × Json) → Json

/-- The own enumerable properties of a JavaScript value, as key/value pairs
in enumeration order: for objects the fields, for arrays and strings the
index keys (lodash `_.keys` coerces primitives to objects, so a string has
one single-character property per index), and nothing for primitives. -/
def jsEntries : Json → List (String × Json)
  | Json.obj kvs => kvs
  | Json.arr xs => ((List.range xs.length).zip xs).map fun p => (toString p.1, p.2)
  | Json.str s => ((List.range s.toList.length).zip s.toList).map fun p =>
      (toString p.1, Json.str (String.singleton p.2))
  | _ => []

/-- `_.keys object`: the own enumerable property names. -/
def jsKeys (x : Json) : List String :=
  (jsEntries x).map Prod.fst

/-- JavaScript property access `object[key]`: the first matching own
property, or `undefined` (modelled as `none`). -/
def jsGetKey (x : Json) (k : String) : Option Json :=
  ((jsEntries x).find? fun p => p.1 == k).map Prod.snd

/-- The guard `typeof v === "object" && !(v instanceof Array)` from
`sortObject` (src/index.ts line 26).  Note `typeof null === "object"` in
JavaScript, so `null` satisfies the guard. -/
def isNonArrayObject : Json → Bool
  | Json.obj _ => true
  | Json.null => true
  | _ => false

/-- Insert a string into a list, before the first element it is ≤ to.
Helper for the stable ascending sort used by `_.sortBy(keys, key => key)`. -/
def insertStr (s : String) : List String → List String
  | [] => [s]
  | t :: ts => if s ≤ t then s :: t :: ts else t :: insertStr s ts

/-- `_.sortBy(keys, key => key)`: stable sort of the key list in ascending
lexical order (insertion sort; stability and the order agree with lodash). -/
def sortStrings : List String → List String
  | [] => []
  | s :: ss => insertStr s (sortStrings ss)

/-- `sortObject` (src/index.ts lines 18-34): collect the keys, sort them
ascending, and rebuild an object in sorted key order; values that are
non-array objects are sorted recursively, every other value is copied
unchanged.  (In particular a `null` value satisfies the recursion guard and
becomes the empty object, and an array value is copied wholesale: the
recursion never descends into arrays.) -/
def sortObject (object : Json) : Json :=
  Json.obj ((sortStrings (jsKeys object)).map fun key =>
    match h : jsGetKey object key with
    | some v => if hv : isNonArrayObject v then (key, sortObject v) else (key, v)
    | none => (key, Json.null))
termination_by sizeOf object
decreasing_by
  obtain ⟨p, hp, hpv⟩ : ∃ p ∈ jsEntries object, p.2 = v := by
    unfold jsGetKey at h
    cases hf : (jsEntries object).find? fun p => p.1 == key with
    | none => simp [hf] at h
    | some p =>
      refine ⟨p, List.mem_of_find?_eq_some hf, ?_⟩
      simp [hf] at h
      exact h
  cases object with
  | obj kvs =>
    have h1 : sizeOf p < sizeOf kvs := List.sizeOf_lt_of_mem hp
    have h2 : sizeOf p.2 < sizeOf kvs := by
      cases p with
      | mk a b => simp at h1 ⊢; omega
    subst hpv
    simp
    omega
  | arr xs =>
    simp [jsEntries] at hp
    obtain ⟨i, w, hiw, hkey2, hval⟩ := hp
    have hw : w ∈ xs := (List.of_mem_zip hiw).2
    have h2 : sizeOf w < sizeOf xs := List.sizeOf_lt_of_mem hw
    subst hpv
    simp_all
    omega
  | str s =>
    simp [jsEntries] at hp
    obtain ⟨i, c, hic, hkey2⟩ := hp
    rw [← hpv, ← hkey2] at hv
    simp [isNonArrayObject] at hv
  | null => simp [jsEntries] at hp
  | bool b => simp [jsEntries] at hp
  | num n => simp [jsEntries] at hp

/-- The value stored at `key` by one pass of `sortObject` over `object`. -/
def sortedEntry (object : Json) (key : String) : Json :=
  match jsGetKey object key with
  | some v => if isNonArrayObject v then sortObject v else v
  | none => Json.null

/-- Keys are in ascending lexical order in every mapping reachable without
passing through an array: this is exactly the normal form `sortObject`
produces, since its recursion stops at array values. -/
inductive KeySortedOutsideArrays : Json → Prop where
  | null : KeySortedOutsideArrays Json.null
  | bool (b : Bool) : KeySortedOutsideArrays (Json.bool b)
  | num (n : Int) : KeySortedOutsideArrays (Json.num n)
  | str (s : String) : KeySortedOutsideArrays (Json.str s)
  | arr (xs : List Json) : KeySortedOutsideArrays (Json.arr xs)
  | obj (kvs : List (String × Json)) :
      (kvs.map Prod.fst).Pairwise (· ≤ ·) →
      (∀ p ∈ kvs, KeySortedOutsideArrays p.2) →
      KeySortedOutsideArrays (Json.obj kvs)

/-- JSON string escaping as performed by `JSON.stringify` for the common
characters (quote, backslash, and the usual control escapes). -/
def jsonEscapeChar (c : Char) : String :=
  if c = '"' then "\\\""
  else if c = '\\' then "\\\\"
  else if c = '\n' then "\\n"
  else if c = '\r' then "\\r"
  else if c = '\t' then "\\t"
  else String.singleton c

def jsonEscape (s : String) : String :=
  String.join (s.toList.map jsonEscapeChar)

mutual

/-- `JSON.stringify`, restricted to JSON-like trees (field order is the
object's own enumeration order, exactly as the source relies on when it
hashes `JSON.stringify({data, token})`). -/
def jsonStringify : Json → String
  | Json.null => "null"
  | Json.bool true => "true"
  | Json.bool false => "false"
  | Json.num n => toString n
  | Json.str s => "\"" ++ jsonEscape s ++ "\""
  | Json.arr xs => "[" ++ jsonStringifyElems xs ++ "]"
  | Json.obj kvs => "\x7b" ++ jsonStringifyMembers kvs ++ "\x7d"

def jsonStringifyElems : List Json → String
  | [] => ""
  | [x] => jsonStringify x
  | x :: y :: rest => jsonStringify x ++ "," ++ jsonStringifyElems (y :: rest)

def jsonStringifyMembers : List (String × Json) → String
  | [] => ""
  | [(k, v)] => "\"" ++ jsonEscape k ++ "\":" ++ jsonStringify v
  | (k, v) :: q :: rest =>
      "\"" ++ jsonEscape k ++ "\":" ++ jsonStringify v ++ "," ++
        jsonStringifyMembers (q :: rest)

end

/-- JavaScript strict equality `v === s` between an arbitrary value and a
string: true exactly when `v` is that string. -/
def jsIsStr : Json → String → Bool
  | Json.str a, b => a == b
  | _, _ => false

/-- `ResponseData` of share-kit as the raw request body presents it: the
five top-level fields of a submission.  Field values are arbitrary
JSON-like values until the shape validator has run (a field absent from
the request is modelled as `null`; it fails `isNullOrWhiteSpace` and the
`instanceof Array` test exactly as `undefined` does). -/
structure ResponseData where
  token : Json
  subject : Json
  data : Json
  packedData : Json
  signature : Json

/-- `TRequestFormatError` (src/index.ts lines 36-39). -/
structure TRequestFormatError where
  key : String
  message : String
deriving DecidableEq

/-- `String.prototype.trim`: remove leading and trailing whitespace. -/
def jsTrim (s : String) : String :=
  String.mk (((s.toList.dropWhile Char.isWhitespace).reverse.dropWhile
    Char.isWhitespace).reverse)

/-- `isNullOrWhiteSpace` (src/index.ts lines 41-42):
`typeof value !== "string" || value.trim() === ""`. -/
def isNullOrWhiteSpace : Json → Bool
  | Json.str s => jsTrim s == ""
  | _ => true

/-- The check `!(req.body.data instanceof Array) || !req.body.data.length`
(src/index.ts line 61), as the property it rejects. -/
def isNonEmptyArray : Json → Bool
  | Json.arr xs => !xs.isEmpty
  | _ => false

/-- `validateRequestFormat` (src/index.ts lines 44-83): five independent
checks, each pushing one error; the pushes happen in source order
token, subject, data, packedData, signature. -/
def validateRequestFormat (body : ResponseData) : List TRequestFormatError :=
  (if isNullOrWhiteSpace body.token then [⟨"token", "TODO"⟩] else []) ++
  (if isNullOrWhiteSpace body.subject then [⟨"subject", "TODO"⟩] else []) ++
  (if !isNonEmptyArray body.data then [⟨"data", "TODO"⟩] else []) ++
  (if isNullOrWhiteSpace body.packedData then [⟨"packedData", "TODO"⟩] else []) ++
  (if isNullOrWhiteSpace body.signature then [⟨"signature", "TODO"⟩] else [])

/-- `TBasicOffChainValidationError` (src/index.ts lines 85-88). -/
structure TBasicOffChainValidationError where
  key : String
  message : String
deriving DecidableEq

/-- `validateBasicOffChainProperties` (src/index.ts lines 90-120),
parameterized by the external primitives: `recover pd sig` stands for
`HashingLogic.recoverHashSigner(toBuffer(pd), sig)` and `keccak` for
`keccak256` of js-sha3.  Both checks are always evaluated and their errors
aggregated: first the signer check (error keyed `subject`), then the hash
recomputation `"0x" + keccak256(JSON.stringify({data, token}))` compared
with the claimed `packedData` (error keyed `packedData`). -/
def validateBasicOffChainProperties (recover : Json → Json → String)
    (keccak : String → String) (shareKitResData : ResponseData) :
    List TBasicOffChainValidationError :=
  let signerEthAddress := recover shareKitResData.packedData shareKitResData.signature
  (if jsIsStr shareKitResData.subject signerEthAddress then []
   else [⟨"subject", "TODO"⟩]) ++
  (let recoveredPackedData := "0x" ++ keccak (jsonStringify (Json.obj
      [("data", shareKitResData.data), ("token", shareKitResData.token)]))
   if jsIsStr shareKitResData.packedData recoveredPackedData then []
   else [⟨"packedData", "TODO"⟩])

/-- `IDecodedLogEvent` (src/txUtils.ts lines 8-12). -/
structure IDecodedLogEvent where
  name : String
  type : String
  value : String

/-- `TDecodedLog` (src/txUtils.ts lines 13-17). -/
structure TDecodedLog where
  address : String
  name : String
  events : List IDecodedLogEvent

/-- `getDecodedLogValueByName` (src/txUtils.ts lines 29-35):
`events.find(e => e.name === name)` then `event && event.value`, i.e. the
value of the first matching event or `undefined` (`none`). -/
def getDecodedLogValueByName (decodedLog : TDecodedLog) (name : String) :
    Option String :=
  (decodedLog.events.find? fun e => e.name == name).map IDecodedLogEvent.value

/-- JavaScript strict equality between a property-access result (a value or
`undefined`) and the result of `getDecodedLogValueByName` (a string or
`undefined`): equal strings match, `undefined === undefined` holds, and
nothing else compares equal. -/
def jsStrictEq : Option Json → Option String → Bool
  | some (Json.str a), some b => a == b
  | some _, some _ => false
  | none, none => true
  | _, _ => false

/-- `TDecodedLogsAndData` (src/index.ts lines 122-125); `shareData` keeps
its JSON form since its fields are accessed dynamically. -/
structure TDecodedLogsAndData where
  shareData : Json
  logs : List TDecodedLog

/-- `TOnChainValidationError` (src/index.ts lines 126-129). -/
structure TOnChainValidationError where
  key : String
  message : String
deriving DecidableEq

/-- The body of the `forEach` in `validateOnChainProperties` (src/index.ts
lines 137-182) for one (record, logs) pair: missing `TraitAttested` log
pushes one error and returns early; otherwise the three comparisons
(top-level subject, record attester, record layer2Hash against the decoded
event fields) each push their own error. -/
def onChainErrsFor (subject : Json) (dl : TDecodedLogsAndData) :
    List TOnChainValidationError :=
  match dl.logs.find? fun l => l.name == "TraitAttested" with
  | none => [⟨"TraitAttested", "TODO"⟩]
  | some traitAttestedLogs =>
    (if jsStrictEq (some subject) (getDecodedLogValueByName traitAttestedLogs "subject")
     then [] else [⟨"subject", "TODO"⟩]) ++
    (if jsStrictEq (jsGetKey dl.shareData "attester")
        (getDecodedLogValueByName traitAttestedLogs "attester")
     then [] else [⟨"attester", "TODO"⟩]) ++
    (if jsStrictEq (jsGetKey dl.shareData "layer2Hash")
        (getDecodedLogValueByName traitAttestedLogs "dataHash")
     then [] else [⟨"layer2Hash", "TODO"⟩])

/-- `validateOnChainProperties` (src/index.ts lines 131-185): the errors of
every pair, aggregated in the order the pairs appear in
`decodedLogsAndData`. -/
def validateOnChainProperties (subject : Json)
    (decodedLogsAndData : List TDecodedLogsAndData) :
    List TOnChainValidationError :=
  decodedLogsAndData.flatMap (onChainErrsFor subject)

/-- The sort applied to each value held by the object being sorted: the
loop body of `sortObject` (src/index.ts lines 25-31) recurses on non-array
objects and copies everything else. -/
def sortValue (v : Json) : Json :=
  if isNonArrayObject v then sortObject v else v

/-- `Array.prototype.map` over a value known to be an array (any other
value is returned unchanged; the call sites only reach the array case
because the shape validator has already required `data` to be a non-empty
array). -/
def jsArrayMap (f : Json → Json) : Json → Json
  | Json.arr xs => Json.arr (xs.map f)
  | v => v

/-- The canonicalization step of the handler (src/index.ts lines 209-210):
`sortObject(req.body)` rebuilds the body object with each top-level field
value put through `sortValue` (the enumeration order of the body object
itself is never observed afterwards, only its five known fields, so the
step is stated field-wise), and then
`shareKitResData.data = shareKitResData.data.map(d => sortObject(d))`
replaces `data` by the element-wise sort of the array. -/
def canonicalizeBody (body : ResponseData) : ResponseData :=
  { token := sortValue body.token
    subject := sortValue body.subject
    data := jsArrayMap sortObject (sortValue body.data)
    packedData := sortValue body.packedData
    signature := sortValue body.signature }

/-- One entry of `offChainVerifications` (src/index.ts lines 223-226). -/
structure TOffChainVerification where
  layer2Hash : Option Json
  errors : List String

/-- `offChainVerifications` (src/index.ts lines 223-226): one result per
data record, in the order of the `data` array, with the external
`shareKitUtil.verifyOffChainDataIntegrity` taken as a parameter. -/
def offChainVerifications (verifyOffChainDataIntegrity : Json → List String)
    (ds : List Json) : List TOffChainVerification :=
  ds.map fun d =>
    { layer2Hash := jsGetKey d "layer2Hash"
      errors := verifyOffChainDataIntegrity d }

/-- The fetch stage (src/index.ts lines 237-248): `Promise.all` starts one
`getDecodedTxEventLogs(provider, shareData.tx)` per record, and each task
pushes `{shareData, logs}` into the shared array only after its own fetch
resolves — so the array is filled in fetch COMPLETION order.
`completionOrder` lists the record indices in the order their fetches
complete (a permutation of `0..n-1` for any actual run); the fetched logs
are a function `fetchLogs` of the record's `tx` field. -/
def buildDecodedDataAndLogs (fetchLogs : Option Json → List TDecodedLog)
    (ds : List Json) (completionOrder : List Nat) : List TDecodedLogsAndData :=
  completionOrder.filterMap fun i =>
    (ds[i]?).map fun shareData =>
      { shareData := shareData
        logs := fetchLogs (jsGetKey shareData "tx") }

/-- The external collaborators of the pipeline, taken as opaque functions:
signature recovery, keccak-256, the per-record off-chain integrity
primitive, and the transaction-receipt fetch plus ABI decode. -/
structure Env where
  recover : Json → Json → String
  keccak : String → String
  verifyOffChainDataIntegrity : Json → List String
  fetchLogs : Option Json → List TDecodedLog

/-- The possible responses of `POST /api/receive`: each early `return`
carries exactly one stage's error list with HTTP 400, and the final success
carries `{success: true, token}` with HTTP 200. -/
inductive RResponse where
  | formatErrors (errors : List TRequestFormatError) : RResponse
  | offChainErrors (errors : List TBasicOffChainValidationError) : RResponse
  | integrityResults (results : List TOffChainVerification) : RResponse
  | onChainErrors (errors : List TOnChainValidationError) : RResponse
  | success (token : Json) : RResponse

/-- The HTTP status code each response is sent with. -/
def RResponse.status : RResponse → Nat
  | RResponse.success _ => 200
  | _ => 400

/-- The elements of `data` once it is known to be an array. -/
def jsArrElems : Json → List Json
  | Json.arr xs => xs
  | _ => []

/-- The `POST /api/receive` handler (src/index.ts lines 200-263):
shape validation, canonicalization, basic off-chain validation, per-record
integrity checks, concurrent log fetch, on-chain validation, success.
Each failing stage returns immediately with its own error list; the final
response carries `req.body.token`, the ORIGINAL submitted token.
Infrastructure failures of the fetch (which surface as HTTP 5xx, not as
validation output) are outside this model: `fetchLogs` is total. -/
def receive (env : Env) (body : ResponseData) (completionOrder : List Nat) :
    RResponse :=
  let reqFormatValidation := validateRequestFormat body
  if reqFormatValidation = [] then
    let shareKitResData := canonicalizeBody body
    let basicOffChainValidation :=
      validateBasicOffChainProperties env.recover env.keccak shareKitResData
    if basicOffChainValidation = [] then
      let offChain := offChainVerifications env.verifyOffChainDataIntegrity
        (jsArrElems shareKitResData.data)
      if offChain.all (fun v => v.errors.isEmpty) then
        let decodedDataAndLogs := buildDecodedDataAndLogs env.fetchLogs
          (jsArrElems shareKitResData.data) completionOrder
        let onChainVerifications :=
          validateOnChainProperties shareKitResData.subject decodedDataAndLogs
        if onChainVerifications = [] then
          RResponse.success body.token
        else RResponse.onChainErrors onChainVerifications
      else RResponse.integrityResults offChain
    else RResponse.offChainErrors basicOffChainValidation
  else RResponse.formatErrors reqFormatValidation

/-- Concrete external primitives for the C1 counterexample: a recovery
function whose output depends on the signed bytes (as ECDSA public-key
recovery does: a different message recovers a different address) and a
constant hash. -/
def recoverC1 : Json → Json → String
  | Json.str s, _ => s
  | _, _ => ""

def keccakC1 : String → String := fun _ => "h"

/-- A submission whose signature is valid (the recovered signer equals
`subject`) and whose `packedData` equals the recomputed hash. -/
def rC1 : ResponseData :=
  { token := Json.null
    subject := Json.str "0xh"
    data := Json.null
    packedData := Json.str "0xh"
    signature := Json.str "sig" }

/-- Concrete data for the C3 counterexample: two records whose transactions
decode to different log sets — the first has no `TraitAttested` log, the
second has one whose `subject` field mismatches. -/
def dsC3 : List Json :=
  [Json.obj [("tx", Json.str "t0")], Json.obj [("tx", Json.str "t1")]]

def fetchC3 : Option Json → List TDecodedLog
  | some (Json.str "t1") =>
      [{ address := "0xc"
         name := "TraitAttested"
         events := [{ name := "subject", type := "address", value := "X" }] }]
  | _ => []

/-- A fully valid concrete submission for the end-to-end witnesses. -/
def bodyC9 : ResponseData :=
  { token := Json.str "tok"
    subject := Json.str "S"
    data := Json.arr [Json.obj []]
    packedData := Json.str "0xH"
    signature := Json.str "sig" }

/-- A decoded `TraitAttested` log matching `bodyC9`. -/
def logC9 : TDecodedLog :=
  { address := "0xa"
    name := "TraitAttested"
    events := [{ name := "subject", type := "address", value := "S" }] }

/-- Concrete external collaborators under which `bodyC9` passes every
stage. -/
def envC9 : Env :=
  { recover := fun _ _ => "S"
    keccak := fun _ => "H"
    verifyOffChainDataIntegrity := fun _ => []
    fetchLogs := fun _ => [logC9] }

/-- Trivial external collaborators (used where the later stages are
irrelevant). -/
def envC5 : Env :=
  { recover := fun _ _ => ""
    keccak := fun _ => ""
    verifyOffChainDataIntegrity := fun _ => []
    fetchLogs := fun _ => [] }

/-- An entirely blank submission: every shape rule is violated. -/
def bodyC5 : ResponseData :=
  { token := Json.null
    subject := Json.null
    data := Json.null
    packedData := Json.null
    signature := Json.null }

theorem mem_of_jsGetKey_eq_some {x : Json} {k : String} {v : Json}
    (h : jsGetKey x k = some v) : ∃ p ∈ jsEntries x, p.2 = v := by
  unfold jsGetKey at h
  cases hf : (jsEntries x).find? fun p => p.1 == k with
  | none => simp [hf] at h
  | some p =>
    refine ⟨p, List.mem_of_find?_eq_some hf, ?_⟩
    simp [hf] at h
    exact h

theorem sizeOf_snd_lt_of_mem {kvs : List (String × Json)} {p : String × Json}
    (hp : p ∈ kvs) : sizeOf p.2 < sizeOf kvs := by
  have h1 : sizeOf p < sizeOf kvs := List.sizeOf_lt_of_mem hp
  cases p with
  | mk a b => simp at h1 ⊢; omega

theorem sizeOf_mem_list {xs : List Json} {v : Json} (hv : v ∈ xs) :
    sizeOf v < sizeOf xs := List.sizeOf_lt_of_mem hv

/-- Any non-array-object value reached by property access is structurally
smaller than the value it was read from (termination measure for
`sortObject`). -/
theorem sizeOf_jsGetKey_lt {x : Json} {k : String} {v : Json}
    (h : jsGetKey x k = some v) (hv : isNonArrayObject v = true) :
    sizeOf v < sizeOf x := by
  obtain ⟨p, hp, hpv⟩ := mem_of_jsGetKey_eq_some h
  cases x with
  | obj kvs =>
    have hp2 : p ∈ kvs := hp
    have := sizeOf_snd_lt_of_mem hp2
    subst hpv
    simp
    omega
  | arr xs =>
    simp [jsEntries] at hp
    obtain ⟨i, w, hiw, hkey, hval⟩ := hp
    have hw : w ∈ xs := (List.of_mem_zip hiw).2
    have := sizeOf_mem_list hw
    subst hpv
    simp_all
    omega
  | str s =>
    simp [jsEntries] at hp
    obtain ⟨i, c, hic, hkey⟩ := hp
    rw [← hpv, ← hkey] at hv
    simp [isNonArrayObject] at hv
  | null => simp [jsEntries] at hp
  | bool b => simp [jsEntries] at hp
  | num n => simp [jsEntries] at hp

theorem sortObject_eq_entries (object : Json) :
    sortObject object =
      Json.obj ((sortStrings (jsKeys object)).map fun key =>
        (key, sortedEntry object key)) := by
  rw [sortObject]
  refine congrArg Json.obj (List.map_congr_left fun key _ => ?_)
  cases h : jsGetKey object key with
  | none => simp [h, sortedEntry]
  | some v =>
    by_cases hv : isNonArrayObject v = true <;>
      simp [h, sortedEntry, hv]

theorem mem_insertStr {a s : String} {l : List String} :
    a ∈ insertStr s l ↔ a = s ∨ a ∈ l := by
  induction l with
  | nil => simp [insertStr]
  | cons t ts ih =>
    by_cases h : s ≤ t <;> simp [insertStr, h, ih] <;> tauto

theorem mem_sortStrings {a : String} {l : List String} :
    a ∈ sortStrings l ↔ a ∈ l := by
  induction l with
  | nil => simp [sortStrings]
  | cons s ss ih => simp [sortStrings, mem_insertStr, ih]

theorem pairwise_insertStr {s : String} {l : List String}
    (h : l.Pairwise (· ≤ ·)) : (insertStr s l).Pairwise (· ≤ ·) := by
  induction l with
  | nil => simp [insertStr]
  | cons t ts ih =>
    rcases List.pairwise_cons.mp h with ⟨ht, hts⟩
    by_cases hst : s ≤ t
    · rw [insertStr, if_pos hst]
      refine List.pairwise_cons.mpr ⟨?_, h⟩
      intro b hb
      rcases List.mem_cons.mp hb with rfl | hb
      · exact hst
      · exact le_trans hst (ht b hb)
    · rw [insertStr, if_neg hst]
      refine List.pairwise_cons.mpr ⟨?_, ih hts⟩
      intro b hb
      rcases mem_insertStr.mp hb with rfl | hb
      · exact le_of_not_le hst
      · exact ht b hb

theorem pairwise_sortStrings (l : List String) :
    (sortStrings l).Pairwise (· ≤ ·) := by
  induction l with
  | nil => simp [sortStrings]
  | cons s ss ih => exact pairwise_insertStr ih

theorem sortStrings_of_pairwise {l : List String}
    (h : l.Pairwise (· ≤ ·)) : sortStrings l = l := by
  induction l with
  | nil => rfl
  | cons s ss ih =>
    rcases List.pairwise_cons.mp h with ⟨hs, hss⟩
    rw [sortStrings, ih hss]
    cases ss with
    | nil => rfl
    | cons t ts => simp [insertStr, hs t (by simp)]

theorem sortStrings_idem (l : List String) :
    sortStrings (sortStrings l) = sortStrings l :=
  sortStrings_of_pairwise (pairwise_sortStrings l)

theorem jsGetKey_obj_build (f : String → Json) (ks : List String) {k : String}
    (hk : k ∈ ks) :
    jsGetKey (Json.obj (ks.map fun a => (a, f a))) k = some (f k) := by
  induction ks with
  | nil => cases hk
  | cons a as ih =>
    by_cases ha : a = k
    · subst ha
      simp [jsGetKey, jsEntries, List.find?]
    · rcases List.mem_cons.mp hk with rfl | hk2
      · exact absurd rfl ha
      · have htail := ih hk2
        simp only [jsGetKey, jsEntries, List.map_cons, List.find?] at htail ⊢
        have : (a == k) = false := by simp [ha]
        rw [this]
        exact htail

theorem find?_isSome_of_mem_map_fst {ps : List (String × Json)} {k : String}
    (hk : k ∈ ps.map Prod.fst) :
    ∃ p, ps.find? (fun p => p.1 == k) = some p := by
  induction ps with
  | nil => cases hk
  | cons p ps ih =>
    by_cases hp : p.1 = k
    · exact ⟨p, by simp [List.find?, hp]⟩
    · rcases List.mem_cons.mp hk with h1 | h2
      · exact absurd h1.symm hp
      · obtain ⟨q, hq⟩ := ih h2
        refine ⟨q, ?_⟩
        simp only [List.find?]
        have : (p.1 == k) = false := by simp [hp]
        rw [this]
        exact hq

theorem jsGetKey_isSome_of_mem_keys {x : Json} {k : String}
    (hk : k ∈ jsKeys x) : ∃ v, jsGetKey x k = some v := by
  unfold jsKeys at hk
  obtain ⟨p, hp⟩ := find?_isSome_of_mem_map_fst hk
  exact ⟨p.2, by rw [jsGetKey, hp]; rfl⟩

theorem jsKeys_obj (kvs : List (String × Json)) :
    jsKeys (Json.obj kvs) = kvs.map Prod.fst := rfl

theorem isNonArrayObject_sortObject (x : Json) :
    isNonArrayObject (sortObject x) = true := by
  rw [sortObject_eq_entries]
  rfl

theorem jsKeys_build (f : String → Json) (ks : List String) :
    jsKeys (Json.obj (ks.map fun a => (a, f a))) = ks := by
  induction ks with
  | nil => rfl
  | cons a as ih => simp only [jsKeys, jsEntries, List.map_cons] at ih ⊢; rw [ih]

theorem sortedEntry_build (f : String → Json) (ks : List String) {k : String}
    (hk : k ∈ ks) :
    sortedEntry (Json.obj (ks.map fun a => (a, f a))) k =
      if isNonArrayObject (f k) then sortObject (f k) else f k := by
  rw [sortedEntry, jsGetKey_obj_build f ks hk]

theorem sortObject_idem_aux :
    ∀ n, ∀ x : Json, sizeOf x < n → sortObject (sortObject x) = sortObject x := by
  intro n
  induction n with
  | zero => intro x hx; omega
  | succ n ih =>
    intro x hx
    rw [sortObject_eq_entries x]
    rw [sortObject_eq_entries (Json.obj ((sortStrings (jsKeys x)).map fun key =>
      (key, sortedEntry x key)))]
    rw [jsKeys_build (sortedEntry x) (sortStrings (jsKeys x))]
    rw [sortStrings_idem]
    refine congrArg Json.obj (List.map_congr_left fun key hkey => ?_)
    have hkx : key ∈ jsKeys x := mem_sortStrings.mp hkey
    obtain ⟨v, hv⟩ := jsGetKey_isSome_of_mem_keys hkx
    have hse : sortedEntry x key = if isNonArrayObject v then sortObject v else v := by
      rw [sortedEntry, hv]
    rw [sortedEntry_build (sortedEntry x) (sortStrings (jsKeys x)) hkey]
    by_cases hobj : isNonArrayObject v = true
    · have hsize : sizeOf v < sizeOf x := sizeOf_jsGetKey_lt hv hobj
      rw [hse, if_pos hobj, if_pos (isNonArrayObject_sortObject v)]
      rw [ih v (by omega)]
    · rw [hse, if_neg hobj, if_neg hobj]

theorem keySorted_sortObject_aux :
    ∀ n, ∀ x : Json, sizeOf x < n → KeySortedOutsideArrays (sortObject x) := by
  intro n
  induction n with
  | zero => intro x hx; omega
  | succ n ih =>
    intro x hx
    rw [sortObject_eq_entries x]
    refine KeySortedOutsideArrays.obj _ ?_ ?_
    · rw [← jsKeys_obj, jsKeys_build]
      exact pairwise_sortStrings (jsKeys x)
    · intro p hp
      rcases List.mem_map.mp hp with ⟨key, hkey, hpk⟩
      rw [← hpk]
      show KeySortedOutsideArrays (sortedEntry x key)
      cases hv : jsGetKey x key with
      | none =>
        rw [sortedEntry, hv]
        exact KeySortedOutsideArrays.null
      | some v =>
        rw [sortedEntry, hv]
        show KeySortedOutsideArrays (if isNonArrayObject v = true then sortObject v else v)
        by_cases hobj : isNonArrayObject v = true
        · rw [if_pos hobj]
          have hsize : sizeOf v < sizeOf x := sizeOf_jsGetKey_lt hv hobj
          exact ih v (by omega)
        · rw [if_neg hobj]
          cases v with
          | null => simp [isNonArrayObject] at hobj
          | obj kvs => simp [isNonArrayObject] at hobj
          | bool b => exact KeySortedOutsideArrays.bool b
          | num m => exact KeySortedOutsideArrays.num m
          | str s => exact KeySortedOutsideArrays.str s
          | arr xs => exact KeySortedOutsideArrays.arr xs

/-- Every output of the canonicalizer (and of the recursion it performs on
non-array-object values) has sorted keys outside arrays. -/
theorem keySorted_sortObject (x : Json) : KeySortedOutsideArrays (sortObject x) :=
  keySorted_sortObject_aux (sizeOf x + 1) x (by omega)

/-- If property `k` of `x` holds a value, one pass of `sortObject` stores at
`k` that same value, recursively sorted when the recursion guard accepts it
and copied verbatim otherwise (so arrays and non-null scalars are copied,
and a null value becomes the empty object). -/
theorem jsGetKey_sortObject {x : Json} {k : String} {v : Json}
    (h : jsGetKey x k = some v) :
    jsGetKey (sortObject x) k =
      some (if isNonArrayObject v then sortObject v else v) := by
  have hk : k ∈ jsKeys x := by
    unfold jsGetKey at h
    cases hf : (jsEntries x).find? fun q => q.1 == k with
    | none => rw [hf] at h; cases h
    | some q =>
      have hq := List.find?_some hf
      have hqk : q.1 = k := by simpa using hq
      have hqm : q ∈ jsEntries x := List.mem_of_find?_eq_some hf
      unfold jsKeys
      rw [← hqk]
      exact List.mem_map_of_mem Prod.fst hqm
  have hks : k ∈ sortStrings (jsKeys x) := mem_sortStrings.mpr hk
  rw [sortObject_eq_entries x]
  rw [jsGetKey_obj_build (sortedEntry x) (sortStrings (jsKeys x)) hks]
  rw [sortedEntry, h]

theorem jsIsStr_iff {v : Json} {s : String} : jsIsStr v s = true ↔ v = Json.str s := by
  cases v <;> simp [jsIsStr]

theorem jsIsStr_eq_false_iff {v : Json} {s : String} :
    jsIsStr v s = false ↔ v ≠ Json.str s := by
  constructor
  · intro h hc
    rw [hc] at h
    simp [jsIsStr] at h
  · intro h
    cases hb : jsIsStr v s
    · rfl
    · exact absurd (jsIsStr_iff.mp hb) h

theorem sortObject_null : sortObject Json.null = Json.obj [] := by
  rw [sortObject_eq_entries]
  rfl

theorem sortObject_obj_nil : sortObject (Json.obj []) = Json.obj [] := by
  rw [sortObject_eq_entries]
  rfl

theorem canonicalizeBody_bodyC9 : canonicalizeBody bodyC9 = bodyC9 := by
  rw [canonicalizeBody]
  simp [bodyC9, sortValue, isNonArrayObject, jsArrayMap, sortObject_obj_nil]

theorem isNullOrWhiteSpace_of_not_str {v : Json} (hv : ∀ s : String, v ≠ Json.str s) :
    isNullOrWhiteSpace v = true := by
  cases v <;> first | rfl | exact absurd rfl (hv _)

theorem exists_str_of_not_isNullOrWhiteSpace {v : Json}
    (h : isNullOrWhiteSpace v = false) : ∃ s, v = Json.str s := by
  cases v <;> simp [isNullOrWhiteSpace] at h <;> exact ⟨_, rfl⟩

/-- C1 (amended): if the claimed `packedData` passes the hash check, then
after replacing it by any different value (in particular a single-byte
mutation) the hash check fails with an error keyed `packedData`; the signer
check, however, is re-evaluated over the MUTATED bytes — the code recovers
the signer from `packedData` itself — so its result is whatever the
comparison of `subject` with the signer recovered from the mutated
`packedData` gives, not necessarily the result it gave before the
mutation. -/
theorem c1_packed_data_mutation (recover : Json → Json → String)
    (keccak : String → String) (r : ResponseData) (pd2 : Json)
    (hhash : jsIsStr r.packedData ("0x" ++ keccak (jsonStringify (Json.obj
      [("data", r.data), ("token", r.token)]))) = true)
    (hne : pd2 ≠ r.packedData) :
    (⟨"packedData", "TODO"⟩ : TBasicOffChainValidationError) ∈
      validateBasicOffChainProperties recover keccak { r with packedData := pd2 } ∧
    ((⟨"subject", "TODO"⟩ : TBasicOffChainValidationError) ∈
        validateBasicOffChainProperties recover keccak { r with packedData := pd2 } ↔
      r.subject ≠ Json.str (recover pd2 r.signature)) := by
  have hpd : r.packedData = Json.str ("0x" ++ keccak (jsonStringify (Json.obj
      [("data", r.data), ("token", r.token)]))) := jsIsStr_iff.mp hhash
  have hfalse : jsIsStr pd2 ("0x" ++ keccak (jsonStringify (Json.obj
      [("data", r.data), ("token", r.token)]))) = false := by
    rw [jsIsStr_eq_false_iff, ← hpd]
    exact hne
  constructor
  · simp [validateBasicOffChainProperties, hfalse]
  · by_cases hs : jsIsStr r.subject (recover pd2 r.signature) = true
    · have hsub := jsIsStr_iff.mp hs
      simp [validateBasicOffChainProperties, hfalse, hs, hsub, jsIsStr]
    · have hsub := jsIsStr_eq_false_iff.mp (by
        cases hb : jsIsStr r.subject (recover pd2 r.signature)
        · rfl
        · exact absurd hb hs)
      simp [validateBasicOffChainProperties, hfalse, hs, hsub]

/-- C1 counterexample: for the unmutated submission both checks pass (no
errors, in particular no `subject` error — the signer check succeeded).
After mutating a single byte of `packedData` ("0xh" to "1xh"), the
validator reports BOTH errors: the hash check fails as the claim predicts,
but the signer check now fails too (the signer is recovered from the
mutated bytes), so its result is NOT the same as before the mutation —
refuting the claim. -/
theorem c1_counterexample :
    validateBasicOffChainProperties recoverC1 keccakC1 rC1 = [] ∧
    validateBasicOffChainProperties recoverC1 keccakC1
        { rC1 with packedData := Json.str "1xh" } =
      [⟨"subject", "TODO"⟩, ⟨"packedData", "TODO"⟩] := by
  constructor
  · decide
  · decide

/-- Witness for the amended C1 at the concrete counterexample input. -/
theorem c1_witness :
    (⟨"packedData", "TODO"⟩ : TBasicOffChainValidationError) ∈
      validateBasicOffChainProperties recoverC1 keccakC1
        { rC1 with packedData := Json.str "1xh" } :=
  (c1_packed_data_mutation recoverC1 keccakC1 rC1 (Json.str "1xh")
    (by decide)
    (by intro h; injection h with h2; exact absurd h2 (by decide))).1

/-- C2 (amended): canonicalization is total and emits every mapping's keys
in ascending lexical order recursively — but only through mapping values:
the recursion never descends into sequences.  A sequence value is copied
verbatim (its elements, even mappings, are not canonicalized), non-null
scalar values pass through unchanged, and a null value is replaced by the
empty mapping (null satisfies the recursion guard and sorting it yields
`{}`). -/
theorem c2_canonicalize_shape (x : Json) :
    KeySortedOutsideArrays (sortObject x) ∧
    (∀ (k : String) (v : Json), jsGetKey x k = some v →
      jsGetKey (sortObject x) k = some (sortValue v)) ∧
    (∀ xs : List Json, sortValue (Json.arr xs) = Json.arr xs) ∧
    (∀ s : String, sortValue (Json.str s) = Json.str s) ∧
    (∀ n : Int, sortValue (Json.num n) = Json.num n) ∧
    (∀ b : Bool, sortValue (Json.bool b) = Json.bool b) ∧
    sortValue Json.null = Json.obj [] := by
  refine ⟨keySorted_sortObject x, ?_, fun xs => rfl, fun s => rfl, fun n => rfl,
    fun b => rfl, ?_⟩
  · intro k v h
    rw [jsGetKey_sortObject h]
    rfl
  · show sortObject Json.null = Json.obj []
    exact sortObject_null

/-- C2 counterexample: the claim requires scalar values — including null —
to pass through unchanged and every nested mapping (also inside sequences)
to be emitted with sorted keys.  The code maps a null value to the empty
mapping, so canonicalizing `{"a": null}` does not return it unchanged; and
it copies sequence values verbatim, so the unsorted mapping inside
`{"k": [{"b": 1, "a": 2}]}` stays unsorted. -/
theorem c2_counterexample :
    sortObject (Json.obj [("a", Json.null)]) = Json.obj [("a", Json.obj [])] ∧
    sortObject (Json.obj [("a", Json.null)]) ≠ Json.obj [("a", Json.null)] ∧
    sortObject (Json.obj [("k", Json.arr [Json.obj [("b", Json.num 1), ("a", Json.num 2)]])]) =
      Json.obj [("k", Json.arr [Json.obj [("b", Json.num 1), ("a", Json.num 2)]])] := by
  have h1 : sortObject (Json.obj [("a", Json.null)]) = Json.obj [("a", Json.obj [])] := by
    rw [sortObject_eq_entries]
    simp [jsKeys, jsEntries, sortStrings, insertStr, sortedEntry, jsGetKey,
      isNonArrayObject, sortObject_null]
  refine ⟨h1, ?_, ?_⟩
  · rw [h1]
    simp
  · rw [sortObject_eq_entries]
    simp [jsKeys, jsEntries, sortStrings, insertStr, sortedEntry, jsGetKey,
      isNonArrayObject]

/-- Witness for the amended C2 at a concrete input: a sorted two-field
object with string values is reproduced field by field. -/
theorem c2_witness :
    jsGetKey (sortObject (Json.obj [("b", Json.str "y"), ("a", Json.str "z")])) "a" =
      some (Json.str "z") := by
  have h := (c2_canonicalize_shape
    (Json.obj [("b", Json.str "y"), ("a", Json.str "z")])).2.1 "a" (Json.str "z")
    (by simp [jsGetKey, jsEntries])
  simpa [sortValue, isNonArrayObject] using h

/-- C3 (amended): the per-record results of the off-chain integrity stage
follow the original `data` order (the stage is a plain map over the data
array), and the fetch stage correlates logs to records by IDENTITY — every
entry pairs a record with the logs fetched for that record's own `tx` — so
for every completion order (any permutation of the indices) the collection
of (record, logs) pairs and hence the multiset of on-chain errors is the
same as for in-order completion.  The ORDER of the on-chain stage's entries
and error attribution, however, is the fetch completion order, not the
original sequence order (the handler pushes into the shared array after
each await). -/
theorem c3_ordering (fetchLogs : Option Json → List TDecodedLog)
    (verify : Json → List String) (subject : Json) (ds : List Json)
    (completionOrder : List Nat)
    (hperm : completionOrder.Perm (List.range ds.length)) :
    (buildDecodedDataAndLogs fetchLogs ds completionOrder).Perm
      (buildDecodedDataAndLogs fetchLogs ds (List.range ds.length)) ∧
    (validateOnChainProperties subject
        (buildDecodedDataAndLogs fetchLogs ds completionOrder)).Perm
      (validateOnChainProperties subject
        (buildDecodedDataAndLogs fetchLogs ds (List.range ds.length))) ∧
    (∀ dl ∈ buildDecodedDataAndLogs fetchLogs ds completionOrder,
      dl.logs = fetchLogs (jsGetKey dl.shareData "tx")) ∧
    (offChainVerifications verify ds).map TOffChainVerification.layer2Hash =
      ds.map (fun d => jsGetKey d "layer2Hash") := by
  have hbuild : (buildDecodedDataAndLogs fetchLogs ds completionOrder).Perm
      (buildDecodedDataAndLogs fetchLogs ds (List.range ds.length)) :=
    hperm.filterMap _
  refine ⟨hbuild, List.Perm.flatMap_right _ hbuild, ?_, ?_⟩
  · intro dl hdl
    rw [buildDecodedDataAndLogs] at hdl
    rcases List.mem_filterMap.mp hdl with ⟨i, _, hmap⟩
    cases hget : ds[i]? with
    | none => rw [hget] at hmap; cases hmap
    | some d =>
      rw [hget] at hmap
      cases hmap
      rfl
  · rw [offChainVerifications, List.map_map]
    rfl

/-- C3 counterexample: with the reversed completion order [1, 0] (a
permutation of the indices) the on-chain stage reports
[subject-error, TraitAttested-error], while in-order completion [0, 1]
reports [TraitAttested-error, subject-error]: the error attribution does
NOT follow the original `data` order for every completion order, refuting
the claim. -/
theorem c3_counterexample :
    ([1, 0] : List Nat).Perm (List.range dsC3.length) ∧
    validateOnChainProperties (Json.str "S")
        (buildDecodedDataAndLogs fetchC3 dsC3 [1, 0]) ≠
      validateOnChainProperties (Json.str "S")
        (buildDecodedDataAndLogs fetchC3 dsC3 [0, 1]) := by
  constructor
  · decide
  · decide

/-- Witness for the amended C3 at a concrete input with a non-identity
completion order. -/
theorem c3_witness :
    (validateOnChainProperties (Json.str "S")
        (buildDecodedDataAndLogs fetchC3 dsC3 [1, 0])).Perm
      (validateOnChainProperties (Json.str "S")
        (buildDecodedDataAndLogs fetchC3 dsC3 (List.range dsC3.length))) :=
  (c3_ordering fetchC3 (fun _ => []) (Json.str "S") dsC3 [1, 0] (by decide)).2.1

/-- C4: for every submission handed to the off-chain identity validator,
the recomputed content hash is `"0x" ++ keccak256` of the JSON encoding of
the object with field `data` then field `token`; an error keyed
`packedData` is produced exactly when that recomputed value differs from
the claimed `packedData`; both checks are always evaluated (the result is
the concatenation of the two independent indicator lists), so the error
list has between 0 and 2 entries. -/
theorem c4_off_chain_identity_validator (recover : Json → Json → String)
    (keccak : String → String) (r : ResponseData) :
    validateBasicOffChainProperties recover keccak r =
      (if jsIsStr r.subject (recover r.packedData r.signature) then []
       else [⟨"subject", "TODO"⟩]) ++
      (if jsIsStr r.packedData ("0x" ++ keccak (jsonStringify (Json.obj
          [("data", r.data), ("token", r.token)]))) then []
       else [⟨"packedData", "TODO"⟩]) ∧
    ((⟨"packedData", "TODO"⟩ : TBasicOffChainValidationError) ∈
        validateBasicOffChainProperties recover keccak r ↔
      r.packedData ≠ Json.str ("0x" ++ keccak (jsonStringify (Json.obj
          [("data", r.data), ("token", r.token)])))) ∧
    ((⟨"subject", "TODO"⟩ : TBasicOffChainValidationError) ∈
        validateBasicOffChainProperties recover keccak r ↔
      r.subject ≠ Json.str (recover r.packedData r.signature)) ∧
    (validateBasicOffChainProperties recover keccak r).length ≤ 2 := by
  refine ⟨rfl, ?_, ?_, ?_⟩
  · have hmem : ((⟨"packedData", "TODO"⟩ : TBasicOffChainValidationError) ∈
        validateBasicOffChainProperties recover keccak r ↔
        ¬ jsIsStr r.packedData ("0x" ++ keccak (jsonStringify (Json.obj
          [("data", r.data), ("token", r.token)]))) = true) := by
      by_cases h1 : jsIsStr r.subject (recover r.packedData r.signature) = true <;>
        by_cases h2 : jsIsStr r.packedData ("0x" ++ keccak (jsonStringify (Json.obj
          [("data", r.data), ("token", r.token)]))) = true <;>
        simp [validateBasicOffChainProperties, h1, h2]
    rw [hmem]
    exact not_congr jsIsStr_iff
  · have hmem : ((⟨"subject", "TODO"⟩ : TBasicOffChainValidationError) ∈
        validateBasicOffChainProperties recover keccak r ↔
        ¬ jsIsStr r.subject (recover r.packedData r.signature) = true) := by
      by_cases h1 : jsIsStr r.subject (recover r.packedData r.signature) = true <;>
        by_cases h2 : jsIsStr r.packedData ("0x" ++ keccak (jsonStringify (Json.obj
          [("data", r.data), ("token", r.token)]))) = true <;>
        simp [validateBasicOffChainProperties, h1, h2]
    rw [hmem]
    exact not_congr jsIsStr_iff
  · by_cases h1 : jsIsStr r.subject (recover r.packedData r.signature) = true <;>
      by_cases h2 : jsIsStr r.packedData ("0x" ++ keccak (jsonStringify (Json.obj
        [("data", r.data), ("token", r.token)]))) = true <;>
      simp [validateBasicOffChainProperties, h1, h2]

/-- Witness for C4 at a concrete input. -/
theorem c4_witness :
    (validateBasicOffChainProperties (fun _ _ => "S") (fun _ => "H") bodyC9).length ≤ 2 :=
  (c4_off_chain_identity_validator (fun _ _ => "S") (fun _ => "H") bodyC9).2.2.2

/-- C5: the shape validator checks the five rules independently, emitting
exactly one error per violated rule (token, subject, data, packedData,
signature, in that order); whenever its error list is non-empty the
pipeline answers HTTP 400 with exactly that list, independent of every
later-stage collaborator and of the fetch completion order (no later stage
runs). -/
theorem c5_shape_validator (body : ResponseData) :
    ((validateRequestFormat body).count ⟨"token", "TODO"⟩ =
        if isNullOrWhiteSpace body.token then 1 else 0) ∧
    ((validateRequestFormat body).count ⟨"subject", "TODO"⟩ =
        if isNullOrWhiteSpace body.subject then 1 else 0) ∧
    ((validateRequestFormat body).count ⟨"data", "TODO"⟩ =
        if isNonEmptyArray body.data then 0 else 1) ∧
    ((validateRequestFormat body).count ⟨"packedData", "TODO"⟩ =
        if isNullOrWhiteSpace body.packedData then 1 else 0) ∧
    ((validateRequestFormat body).count ⟨"signature", "TODO"⟩ =
        if isNullOrWhiteSpace body.signature then 1 else 0) ∧
    (∀ env env2 : Env, ∀ order order2 : List Nat,
      validateRequestFormat body ≠ [] →
        receive env body order =
            RResponse.formatErrors (validateRequestFormat body) ∧
          (receive env body order).status = 400 ∧
          receive env body order = receive env2 body order2) := by
  refine ⟨?_, ?_, ?_, ?_, ?_, ?_⟩
  · by_cases h : isNullOrWhiteSpace body.token <;>
      simp [validateRequestFormat, h, List.count_append, List.count_cons,
        apply_ite (List.count (⟨"token", "TODO"⟩ : TRequestFormatError))]
  · by_cases h : isNullOrWhiteSpace body.subject <;>
      simp [validateRequestFormat, h, List.count_append, List.count_cons,
        apply_ite (List.count (⟨"subject", "TODO"⟩ : TRequestFormatError))]
  · by_cases h : isNonEmptyArray body.data <;>
      simp [validateRequestFormat, h, List.count_append, List.count_cons,
        apply_ite (List.count (⟨"data", "TODO"⟩ : TRequestFormatError))]
  · by_cases h : isNullOrWhiteSpace body.packedData <;>
      simp [validateRequestFormat, h, List.count_append, List.count_cons,
        apply_ite (List.count (⟨"packedData", "TODO"⟩ : TRequestFormatError))]
  · by_cases h : isNullOrWhiteSpace body.signature <;>
      simp [validateRequestFormat, h, List.count_append, List.count_cons,
        apply_ite (List.count (⟨"signature", "TODO"⟩ : TRequestFormatError))]
  · intro env env2 order order2 h
    refine ⟨?_, ?_, ?_⟩ <;> simp [receive, h, RResponse.status]

/-- Witness for C5 at a concrete input: a blank submission is rejected with
the shape validator's error list. -/
theorem c5_witness :
    validateRequestFormat bodyC5 ≠ [] ∧
    receive envC5 bodyC5 [0] =
      RResponse.formatErrors (validateRequestFormat bodyC5) := by
  have h : validateRequestFormat bodyC5 ≠ [] := by decide
  exact ⟨h, ((c5_shape_validator bodyC5).2.2.2.2.2 envC5 envC5 [0] [0] h).1⟩

/-- C6: for a (record, logs) pair whose logs contain no log named
`TraitAttested`, the on-chain cross-validator emits exactly one error keyed
`TraitAttested` for that pair — whatever the claimed subject and record
fields are, so none of the subject/attester/dataHash comparisons can
influence the outcome for that pair — while all other pairs are still
evaluated in place. -/
theorem c6_missing_trait_attested (subject : Json) (dl : TDecodedLogsAndData)
    (dls1 dls2 : List TDecodedLogsAndData)
    (h : ∀ l ∈ dl.logs, l.name ≠ "TraitAttested") :
    onChainErrsFor subject dl = [⟨"TraitAttested", "TODO"⟩] ∧
    validateOnChainProperties subject (dls1 ++ dl :: dls2) =
      validateOnChainProperties subject dls1 ++
        ⟨"TraitAttested", "TODO"⟩ :: validateOnChainProperties subject dls2 := by
  have hfind : dl.logs.find? (fun l => l.name == "TraitAttested") = none := by
    rw [List.find?_eq_none]
    intro l hl
    simpa using h l hl
  have herrs : onChainErrsFor subject dl = [⟨"TraitAttested", "TODO"⟩] := by
    rw [onChainErrsFor, hfind]
  refine ⟨herrs, ?_⟩
  rw [validateOnChainProperties, validateOnChainProperties, validateOnChainProperties]
  rw [List.flatMap_append, List.flatMap_cons, herrs]
  rfl

/-- Witness for C6 at a concrete input: a record with no decoded logs. -/
theorem c6_witness :
    onChainErrsFor Json.null { shareData := Json.null, logs := [] } =
      [⟨"TraitAttested", "TODO"⟩] :=
  (c6_missing_trait_attested Json.null { shareData := Json.null, logs := [] } [] []
    (by intro l hl; cases hl)).1

/-- C7: the orchestrator runs the stages in order — shape validation,
canonicalization plus basic off-chain validation, per-record integrity
checks, concurrent fetch plus on-chain validation — and the response is
characterized stage by stage: each possible response occurs exactly when
every earlier stage passed and (for the error responses) that stage failed,
so a response always carries exactly one stage's full error list and later
stages never contribute once an earlier stage has failed. -/
theorem c7_stage_cascade (env : Env) (body : ResponseData)
    (completionOrder : List Nat) :
    (receive env body completionOrder =
        RResponse.formatErrors (validateRequestFormat body) ↔
      validateRequestFormat body ≠ []) ∧
    (receive env body completionOrder = RResponse.offChainErrors
        (validateBasicOffChainProperties env.recover env.keccak
          (canonicalizeBody body)) ↔
      (validateRequestFormat body = [] ∧
        validateBasicOffChainProperties env.recover env.keccak
          (canonicalizeBody body) ≠ [])) ∧
    (receive env body completionOrder = RResponse.integrityResults
        (offChainVerifications env.verifyOffChainDataIntegrity
          (jsArrElems (canonicalizeBody body).data)) ↔
      (validateRequestFormat body = [] ∧
        validateBasicOffChainProperties env.recover env.keccak
          (canonicalizeBody body) = [] ∧
        ¬ (offChainVerifications env.verifyOffChainDataIntegrity
            (jsArrElems (canonicalizeBody body).data)).all
          (fun v => v.errors.isEmpty) = true)) ∧
    (receive env body completionOrder = RResponse.onChainErrors
        (validateOnChainProperties (canonicalizeBody body).subject
          (buildDecodedDataAndLogs env.fetchLogs
            (jsArrElems (canonicalizeBody body).data) completionOrder)) ↔
      (validateRequestFormat body = [] ∧
        validateBasicOffChainProperties env.recover env.keccak
          (canonicalizeBody body) = [] ∧
        (offChainVerifications env.verifyOffChainDataIntegrity
            (jsArrElems (canonicalizeBody body).data)).all
          (fun v => v.errors.isEmpty) = true ∧
        validateOnChainProperties (canonicalizeBody body).subject
          (buildDecodedDataAndLogs env.fetchLogs
            (jsArrElems (canonicalizeBody body).data) completionOrder) ≠ [])) ∧
    (receive env body completionOrder = RResponse.success body.token ↔
      (validateRequestFormat body = [] ∧
        validateBasicOffChainProperties env.recover env.keccak
          (canonicalizeBody body) = [] ∧
        (offChainVerifications env.verifyOffChainDataIntegrity
            (jsArrElems (canonicalizeBody body).data)).all
          (fun v => v.errors.isEmpty) = true ∧
        validateOnChainProperties (canonicalizeBody body).subject
          (buildDecodedDataAndLogs env.fetchLogs
            (jsArrElems (canonicalizeBody body).data) completionOrder) = [])) := by
  by_cases h1 : validateRequestFormat body = [] <;>
    by_cases h2 : validateBasicOffChainProperties env.recover env.keccak
      (canonicalizeBody body) = [] <;>
    by_cases h3 : (offChainVerifications env.verifyOffChainDataIntegrity
        (jsArrElems (canonicalizeBody body).data)).all
      (fun v => v.errors.isEmpty) = true <;>
    by_cases h4 : validateOnChainProperties (canonicalizeBody body).subject
      (buildDecodedDataAndLogs env.fetchLogs
        (jsArrElems (canonicalizeBody body).data) completionOrder) = [] <;>
    simp [receive, h1, h2, h3, h4]

/-- Witness for C7 at a concrete input. -/
theorem c7_witness :
    receive envC5 bodyC5 [0] =
        RResponse.formatErrors (validateRequestFormat bodyC5) ↔
      validateRequestFormat bodyC5 ≠ [] :=
  (c7_stage_cascade envC5 bodyC5 [0]).1

/-- C8: canonicalization is idempotent: applying `sortObject` twice gives
the same result as applying it once, on every JSON-like tree. -/
theorem c8_canonicalize_idempotent (x : Json) :
    sortObject (sortObject x) = sortObject x :=
  sortObject_idem_aux (sizeOf x + 1) x (by omega)

/-- Witness for C8 at a concrete input. -/
theorem c8_witness :
    sortObject (sortObject Json.null) = sortObject Json.null :=
  c8_canonicalize_idempotent Json.null

/-- C9: when every stage passes, the response is HTTP 200 with
`{success: true, token}` where the token is `req.body.token`, the field of
the original request body (not of the canonicalized copy the later stages
worked on). -/
theorem c9_success_original_token (env : Env) (body : ResponseData)
    (completionOrder : List Nat)
    (h1 : validateRequestFormat body = [])
    (h2 : validateBasicOffChainProperties env.recover env.keccak
      (canonicalizeBody body) = [])
    (h3 : (offChainVerifications env.verifyOffChainDataIntegrity
        (jsArrElems (canonicalizeBody body).data)).all
      (fun v => v.errors.isEmpty) = true)
    (h4 : validateOnChainProperties (canonicalizeBody body).subject
      (buildDecodedDataAndLogs env.fetchLogs
        (jsArrElems (canonicalizeBody body).data) completionOrder) = []) :
    receive env body completionOrder = RResponse.success body.token ∧
    (receive env body completionOrder).status = 200 := by
  constructor <;> simp [receive, h1, h2, h3, h4, RResponse.status]

/-- Witness for C9: the concrete fully valid submission is accepted and the
response carries the originally submitted token. -/
theorem c9_witness :
    validateRequestFormat bodyC9 = [] ∧
    receive envC9 bodyC9 [0] = RResponse.success (Json.str "tok") := by
  have hcanon : canonicalizeBody bodyC9 = bodyC9 := canonicalizeBody_bodyC9
  have h1 : validateRequestFormat bodyC9 = [] := by decide
  have h2 : validateBasicOffChainProperties envC9.recover envC9.keccak
      (canonicalizeBody bodyC9) = [] := by
    rw [hcanon]; decide
  have h3 : (offChainVerifications envC9.verifyOffChainDataIntegrity
      (jsArrElems (canonicalizeBody bodyC9).data)).all
      (fun v => v.errors.isEmpty) = true := by
    rw [hcanon]; decide
  have h4 : validateOnChainProperties (canonicalizeBody bodyC9).subject
      (buildDecodedDataAndLogs envC9.fetchLogs
        (jsArrElems (canonicalizeBody bodyC9).data) [0]) = [] := by
    rw [hcanon]; decide
  exact ⟨h1, (c9_success_original_token envC9 bodyC9 [0] h1 h2 h3 h4).1⟩

/-- C10: a submission field that is present but not a string (number,
boolean, object, array, or null) fails `isNullOrWhiteSpace`, so the shape
validator emits the error for that field; conversely a field that escapes
its error must be a string — only string-typed values can pass the
non-blank checks. -/
theorem c10_nonstring_fields_rejected (body : ResponseData) (v : Json)
    (hv : ∀ s : String, v ≠ Json.str s) :
    (⟨"token", "TODO"⟩ : TRequestFormatError) ∈
        validateRequestFormat { body with token := v } ∧
    (⟨"subject", "TODO"⟩ : TRequestFormatError) ∈
        validateRequestFormat { body with subject := v } ∧
    (⟨"packedData", "TODO"⟩ : TRequestFormatError) ∈
        validateRequestFormat { body with packedData := v } ∧
    (⟨"signature", "TODO"⟩ : TRequestFormatError) ∈
        validateRequestFormat { body with signature := v } ∧
    ((⟨"token", "TODO"⟩ : TRequestFormatError) ∉ validateRequestFormat body →
      ∃ s, body.token = Json.str s) ∧
    ((⟨"subject", "TODO"⟩ : TRequestFormatError) ∉ validateRequestFormat body →
      ∃ s, body.subject = Json.str s) ∧
    ((⟨"packedData", "TODO"⟩ : TRequestFormatError) ∉ validateRequestFormat body →
      ∃ s, body.packedData = Json.str s) ∧
    ((⟨"signature", "TODO"⟩ : TRequestFormatError) ∉ validateRequestFormat body →
      ∃ s, body.signature = Json.str s) := by
  have hb := isNullOrWhiteSpace_of_not_str hv
  refine ⟨?_, ?_, ?_, ?_, ?_, ?_, ?_, ?_⟩
  · simp [validateRequestFormat, hb]
  · simp [validateRequestFormat, hb]
  · simp [validateRequestFormat, hb]
  · simp [validateRequestFormat, hb]
  · intro hmem
    refine exists_str_of_not_isNullOrWhiteSpace ?_
    by_contra hc
    have : isNullOrWhiteSpace body.token = true := by
      cases h : isNullOrWhiteSpace body.token
      · exact absurd h hc
      · rfl
    exact hmem (by simp [validateRequestFormat, this])
  · intro hmem
    refine exists_str_of_not_isNullOrWhiteSpace ?_
    by_contra hc
    have : isNullOrWhiteSpace body.subject = true := by
      cases h : isNullOrWhiteSpace body.subject
      · exact absurd h hc
      · rfl
    exact hmem (by simp [validateRequestFormat, this])
  · intro hmem
    refine exists_str_of_not_isNullOrWhiteSpace ?_
    by_contra hc
    have : isNullOrWhiteSpace body.packedData = true := by
      cases h : isNullOrWhiteSpace body.packedData
      · exact absurd h hc
      · rfl
    exact hmem (by simp [validateRequestFormat, this])
  · intro hmem
    refine exists_str_of_not_isNullOrWhiteSpace ?_
    by_contra hc
    have : isNullOrWhiteSpace body.signature = true := by
      cases h : isNullOrWhiteSpace body.signature
      · exact absurd h hc
      · rfl
    exact hmem (by simp [validateRequestFormat, this])

/-- Witness for C10 at a concrete input: a numeric token is rejected. -/
theorem c10_witness :
    (⟨"token", "TODO"⟩ : TRequestFormatError) ∈
      validateRequestFormat { bodyC9 with token := Json.num 3 } :=
  (c10_nonstring_fields_rejected bodyC9 (Json.num 3) (by intro s h; cases h)).1
